import Mathlib

/-!
Shallow embedding of `client/commands/statistics.py` (pyre-check statistics
command) and proofs of the specification claims about it.

Modelling conventions:
* Python unbounded non-negative counters become `Nat` (they start at 0 and are
  only ever incremented).
* A libcst `Param` is modelled by the only field the code reads: whether its
  `annotation` is not `None`.  Likewise `FunctionDef` keeps only `returns`
  (is a return annotation present) and the two parameter sub-lists the code
  reads (`params.default_params` and `params.params`).
* A CST traversal is modelled as the sequence of visitor callbacks it fires,
  in traversal order (`CollectorEvent`).  A module is such a sequence.
* Python `dict[str, int]` with insertion order becomes an association list
  (`Dict`); `defaultdict(int)` increment (`d[k] += 1`) becomes `dictIncr`,
  which updates an existing key in place or appends a fresh key with count 1.
* Python object identity for the mutable `fixme_counts` dictionary is made
  explicit with a tiny heap of dictionaries (`Heap`): a
  `FixmeCountCollector` holds the address of its dictionary, writes mutate
  the heap, and `dict(...)` copying allocates a fresh cell.  The module-level
  default argument `defaultdict(int)` of `FixmeCountCollector.__init__` is a
  single cell allocated once per process and reused by every
  `FixmeCountCollector()` call, exactly as Python evaluates default
  arguments once at function definition time.
-/

/-- One formal parameter of a function definition: the code only reads
whether `parameter.annotation is not None`. -/
structure Param where
  annotation : Bool
deriving DecidableEq, Repr

/-- The `params` object of a libcst `FunctionDef`, restricted to the two
sub-lists the collector reads. -/
structure Parameters where
  default_params : List Param
  params : List Param
deriving DecidableEq, Repr

/-- A libcst `FunctionDef` node, restricted to the fields the collector
reads: `returns is not None` and the parameter lists. -/
structure FunctionDef where
  returns : Bool
  params : Parameters
deriving DecidableEq, Repr

/-- The six counters of `AnnotationCountCollector`. -/
structure AnnotationCountCollector where
  return_count : Nat
  annotated_return_count : Nat
  globals_count : Nat
  annotated_globals_count : Nat
  parameter_count : Nat
  annotated_parameter_count : Nat
deriving DecidableEq, Repr

/-- Python `AnnotationCountCollector()` with the all-zero defaults of `__init__`. -/
def AnnotationCountCollector.init : AnnotationCountCollector :=
  ⟨0, 0, 0, 0, 0, 0⟩

/-- Source `AnnotationCountCollector._check_parameter_annotations`: for each
parameter increment `parameter_count`, and `annotated_parameter_count` when
the parameter carries an annotation. -/
def AnnotationCountCollector.check_parameter_annotations
    (c : AnnotationCountCollector) (parameters : List Param) :
    AnnotationCountCollector :=
  parameters.foldl
    (fun c parameter =>
      let c := { c with parameter_count := c.parameter_count + 1 }
      if Param.annotation parameter then
        { c with annotated_parameter_count := c.annotated_parameter_count + 1 }
      else c)
    c

/-- Source `AnnotationCountCollector.visit_FunctionDef`. -/
def AnnotationCountCollector.visit_FunctionDef
    (c : AnnotationCountCollector) (node : FunctionDef) :
    AnnotationCountCollector :=
  let c := { c with return_count := c.return_count + 1 }
  let c :=
    if FunctionDef.returns node then
      { c with annotated_return_count := c.annotated_return_count + 1 }
    else c
  let c :=
    AnnotationCountCollector.check_parameter_annotations c
      (Parameters.default_params (FunctionDef.params node))
  AnnotationCountCollector.check_parameter_annotations c
    (Parameters.params (FunctionDef.params node))

/-- Source `AnnotationCountCollector.visit_Assign`. -/
def AnnotationCountCollector.visit_Assign
    (c : AnnotationCountCollector) : AnnotationCountCollector :=
  { c with globals_count := c.globals_count + 1 }

/-- Source `AnnotationCountCollector.visit_AnnAssign`. -/
def AnnotationCountCollector.visit_AnnAssign
    (c : AnnotationCountCollector) : AnnotationCountCollector :=
  { c with
    globals_count := c.globals_count + 1
    annotated_globals_count := c.annotated_globals_count + 1 }

/-- Source `AnnotationCountCollector.build_json`: the report dictionary, with the
fixed key order of the Python dict literal. -/
def AnnotationCountCollector.build_json
    (c : AnnotationCountCollector) : List (String × Nat) :=
  [("return_count", c.return_count),
   ("annotated_return_count", c.annotated_return_count),
   ("globals_count", c.globals_count),
   ("annotated_globals_count", c.annotated_globals_count),
   ("parameter_count", c.parameter_count),
   ("annotated_parameter_count", c.annotated_parameter_count)]

/-- One visitor callback fired by a CST traversal, in traversal order.
`AnnotationCountCollector` handles the first three kinds;
`FixmeCountCollector` handles comments; each ignores the others. -/
inductive CollectorEvent
  | functionDef (node : FunctionDef)
  | assign
  | annAssign
  | comment (value : String)
deriving DecidableEq, Repr

/-- Dispatch of one traversal callback to the handlers of
`AnnotationCountCollector` (a node kind with no handler leaves the collector unchanged). -/
def AnnotationCountCollector.visit
    (c : AnnotationCountCollector) : CollectorEvent → AnnotationCountCollector
  | .functionDef node => AnnotationCountCollector.visit_FunctionDef c node
  | .assign => AnnotationCountCollector.visit_Assign c
  | .annAssign => AnnotationCountCollector.visit_AnnAssign c
  | .comment _ => c

/-- An insertion-ordered Python `dict[str, int]`. -/
abbrev Dict := List (String × Nat)

/-- Python `d[k]` with `defaultdict(int)` read semantics: 0 for a missing key. -/
def dictGet : Dict → String → Nat
  | [], _ => 0
  | (k', v) :: rest, k => if k' = k then v else dictGet rest k

/-- Python `d[k] += 1` on a `defaultdict(int)`: update an existing key in place
(keeping its position), or append the fresh key with count 1. -/
def dictIncr : Dict → String → Dict
  | [], k => [(k, 1)]
  | (k', v) :: rest, k =>
    if k' = k then (k', v + 1) :: rest else (k', v) :: dictIncr rest k

/-- The literal part of the fixme pattern before the digit group:
`"# pyre-fixme["` (the regex is `# pyre-fixme\[(\d*)\]:`). -/
def fixmeHead : List Char := "# pyre-fixme[".toList

/-- The literal part of the fixme pattern after the digit group: `"]:"`. -/
def fixmeClose : List Char := "]:".toList

/-- Python `re.match("# pyre-fixme\[(\d*)\]:", value)` on the characters of the
comment: anchored at the start, greedy digit group (possibly empty); returns
the digit group on success.  Since a digit can never match `]`, the greedy
`\d*` matches exactly the maximal digit run after the bracket. -/
def fixmeMatchChars (l : List Char) : Option (List Char) :=
  if fixmeHead.isPrefixOf l then
    let rest := l.drop fixmeHead.length
    if fixmeClose.isPrefixOf (rest.dropWhile Char.isDigit) then
      some (rest.takeWhile Char.isDigit)
    else none
  else none

/-- Python `re.match` of the fixme regex against a comment string, returning
`match.group(1)`. -/
def fixmeMatch (s : String) : Option String :=
  Option.map String.mk (fixmeMatchChars s.toList)

/-- Effect of `FixmeCountCollector.visit_Comment` on the underlying counts
dictionary: on a match increment the counter keyed by the digit group,
otherwise leave the dictionary unchanged. -/
def visit_Comment (counts : Dict) (value : String) : Dict :=
  match fixmeMatch value with
  | some code => dictIncr counts code
  | none => counts

/-- A heap of dictionaries, making Python object identity explicit:
the address of a cell is its index in `cells`. -/
structure Heap where
  cells : List Dict
deriving DecidableEq, Repr

/-- Dereference an address (reads of valid addresses only are ever used). -/
def Heap.read (h : Heap) (a : Nat) : Dict :=
  h.cells.getD a []

/-- Mutate the dictionary stored at an address. -/
def Heap.write (h : Heap) (a : Nat) (d : Dict) : Heap :=
  ⟨h.cells.set a d⟩

/-- Allocate a fresh dictionary cell; returns the new heap and the fresh
address. -/
def Heap.alloc (h : Heap) (d : Dict) : Heap × Nat :=
  (⟨h.cells ++ [d]⟩, h.cells.length)

/-- A `FixmeCountCollector` holds a reference to its `fixme_counts`
dictionary.  `FixmeCountCollector()` binds it to the single default
`defaultdict(int)` cell that Python allocated once, at function definition
time, for the `__init__` default argument. -/
structure FixmeCountCollector where
  fixme_counts : Nat
deriving DecidableEq, Repr

/-- Source `FixmeCountCollector.visit_Comment`: mutates the referenced dictionary
in place on a match. -/
def FixmeCountCollector.visitComment
    (h : Heap) (c : FixmeCountCollector) (value : String) : Heap :=
  match fixmeMatch value with
  | some code =>
    Heap.write h c.fixme_counts
      (dictIncr (Heap.read h c.fixme_counts) code)
  | none => h

/-- Source `FixmeCountCollector.build_json`: `dict(self.fixme_counts)` copies the
accumulated dictionary into a fresh object; returns the heap after the
allocation and the address of the copy. -/
def FixmeCountCollector.build_json
    (h : Heap) (c : FixmeCountCollector) : Heap × Nat :=
  Heap.alloc h (Heap.read h c.fixme_counts)

/-- A parsed module, as the sequence of visitor callbacks its traversal
fires. -/
abbrev PyModule := List CollectorEvent

/-- Source `_count(paths, AnnotationCountCollector())`: one pass of the annotation
collector over every tree, strictly in sequence. -/
def countAnnotations
    (modules : List PyModule) (c : AnnotationCountCollector) :
    AnnotationCountCollector :=
  modules.foldl (fun c m => m.foldl AnnotationCountCollector.visit c) c

/-- Source `_count(paths, FixmeCountCollector())`: one pass of the fixme collector
over every tree, mutating its referenced dictionary in the heap. -/
def countFixmes
    (modules : List PyModule) (c : FixmeCountCollector) (h : Heap) : Heap :=
  modules.foldl
    (fun h m =>
      m.foldl
        (fun h e =>
          match e with
          | CollectorEvent.comment v => FixmeCountCollector.visitComment h c v
          | _ => h)
        h)
    h

/-- The assembled report of `Statistics._run`:
`{"annotations": ..., "fixmes": ...}` (the fixme part recorded by value,
after the `build_json` copy). -/
structure Report where
  annotations : List (String × Nat)
  fixmes : Dict
deriving DecidableEq, Repr

/-- One execution of `Statistics._run` over already-parsed modules.
`defaultAddr` is the address of the process-wide default `defaultdict(int)`
cell; `FixmeCountCollector()` aliases it.  Returns the report and the heap
the run leaves behind. -/
def runStatistics
    (modules : List PyModule) (defaultAddr : Nat) (h : Heap) : Report × Heap :=
  let a := countAnnotations modules AnnotationCountCollector.init
  let c : FixmeCountCollector := ⟨defaultAddr⟩
  let h1 := countFixmes modules c h
  let hr := FixmeCountCollector.build_json h1 c
  (⟨AnnotationCountCollector.build_json a, Heap.read hr.1 hr.2⟩, hr.1)

/-- The heap of a freshly started process: importing the module evaluates
the default argument `defaultdict(int)` once, allocating one empty
dictionary at address 0. -/
def initialHeap : Heap := ⟨[[]]⟩

/-- The configuration marker of `_find_paths`:
`".pyre_configuration.local"`. -/
def markerChars : List Char := ".pyre_configuration.local".toList

/-- Python `local_configuration.replace(".pyre_configuration.local", "")`:
scan left to right, removing every (non-overlapping) occurrence of the
marker.  Structural recursion on a fuel bound (the string length) so that
the kernel can evaluate it; with fuel at least the length of the input the
fuel is never exhausted. -/
def stripMarkerFuel : Nat → List Char → List Char
  | _, [] => []
  | 0, l => l
  | fuel + 1, c :: rest =>
    if markerChars.isPrefixOf (c :: rest) then
      stripMarkerFuel fuel (rest.drop (markerChars.length - 1))
    else
      c :: stripMarkerFuel fuel rest

/-- Python `local_configuration.replace(".pyre_configuration.local", "")`. -/
def stripConfigurationMarker (l : List Char) : List Char :=
  stripMarkerFuel l.length l

/-- Modelled from the spec (for comparison with the replace-all of the source in
claim C6): "strip any trailing configuration marker suffix from it" — remove
the marker once, when it stands at the very end, and only there. -/
def specStripTrailing (l : List Char) : List Char :=
  if markerChars.isSuffixOf l then l.take (l.length - markerChars.length)
  else l

/-- Base directory derivation of `_find_paths`: a truthy (non-empty)
`local_configuration` yields `Path(local_configuration.replace(marker, ""))`,
otherwise `Path.cwd()`; the process working directory is passed in
explicitly since the embedding is pure. -/
def baseDirectory (local_configuration : String) (cwd : String) : String :=
  if local_configuration ≠ "" then
    String.mk (stripConfigurationMarker local_configuration.toList)
  else cwd

/-- Python `pathlib` joining of string paths: an absolute right-hand side
replaces the base; otherwise the two are joined with a separator (the
prefix/suffix tests are taken on the character lists so the kernel can
evaluate them). -/
def pathJoin (base p : String) : String :=
  if ("/".toList).isPrefixOf p.toList then p
  else if ("/".toList).isSuffixOf base.toList then base ++ p
  else base ++ "/" ++ p

/-- Source `_find_paths(local_configuration, paths)`: derive the base directory,
then either join every filter onto it (truthy `paths`) or return the base
directory alone. -/
def find_paths
    (local_configuration : String) (cwd : String) (paths : List String) :
    List String :=
  let dir := baseDirectory local_configuration cwd
  if paths ≠ [] then paths.map (fun p => pathJoin dir p) else [dir]

/-- The three coverage inequalities of the Annotation Coverage Collector
(each annotated subset within its total). -/
def annotatedWithinTotals (c : AnnotationCountCollector) : Prop :=
  c.annotated_return_count ≤ c.return_count ∧
  c.annotated_parameter_count ≤ c.parameter_count ∧
  c.annotated_globals_count ≤ c.globals_count

/-! ## Helper lemmas -/

/-- Full characterization of `_check_parameter_annotations`: it adds the
number of parameters to `parameter_count`, the number of annotated
parameters to `annotated_parameter_count`, and touches nothing else. -/
theorem check_parameter_annotations_spec :
    ∀ (parameters : List Param) (c : AnnotationCountCollector),
    AnnotationCountCollector.check_parameter_annotations c parameters =
      { c with
        parameter_count := c.parameter_count + parameters.length
        annotated_parameter_count :=
          c.annotated_parameter_count +
            parameters.countP (fun p => Param.annotation p) }
  | [], c => by
    simp [AnnotationCountCollector.check_parameter_annotations]
  | p :: ps, c => by
    have ih := check_parameter_annotations_spec ps
    show AnnotationCountCollector.check_parameter_annotations
        (if Param.annotation p then
          { c with
            parameter_count := c.parameter_count + 1
            annotated_parameter_count := c.annotated_parameter_count + 1 }
        else { c with parameter_count := c.parameter_count + 1 }) ps = _
    cases hp : Param.annotation p <;>
      · simp only [hp, if_true, if_false, ih]
        cases c
        simp [List.countP_cons, hp]
        omega

/-- Full characterization of `visit_FunctionDef` in terms of the
concatenation of the two parameter sub-lists. -/
theorem visit_FunctionDef_spec (c : AnnotationCountCollector)
    (node : FunctionDef) :
    AnnotationCountCollector.visit_FunctionDef c node =
      { c with
        return_count := c.return_count + 1
        annotated_return_count :=
          c.annotated_return_count +
            (if FunctionDef.returns node then 1 else 0)
        parameter_count :=
          c.parameter_count +
            (Parameters.default_params (FunctionDef.params node) ++
              Parameters.params (FunctionDef.params node)).length
        annotated_parameter_count :=
          c.annotated_parameter_count +
            (Parameters.default_params (FunctionDef.params node) ++
              Parameters.params (FunctionDef.params node)).countP
              (fun p => Param.annotation p) } := by
  unfold AnnotationCountCollector.visit_FunctionDef
  rw [check_parameter_annotations_spec, check_parameter_annotations_spec]
  cases hr : FunctionDef.returns node <;>
    · cases c
      simp [hr, List.countP_append]
      omega

/-! ## Claim theorems -/

/-- C1: every function definition node increments `return_count` by exactly
1, increments `annotated_return_count` by 1 exactly when the node declares a
return-type annotation, and for the N parameters held jointly by the
default-parameter sub-list and the plain-parameter sub-list (the default
sub-list is processed first, then the plain one), of which K are annotated,
it increments `parameter_count` by exactly N and
`annotated_parameter_count` by exactly K. -/
theorem visit_FunctionDef_increments (c : AnnotationCountCollector)
    (node : FunctionDef) :
    (AnnotationCountCollector.visit_FunctionDef c node).return_count =
        c.return_count + 1 ∧
    (AnnotationCountCollector.visit_FunctionDef c node).annotated_return_count =
        c.annotated_return_count +
          (if FunctionDef.returns node then 1 else 0) ∧
    (AnnotationCountCollector.visit_FunctionDef c node).parameter_count =
        c.parameter_count +
          (Parameters.default_params (FunctionDef.params node) ++
            Parameters.params (FunctionDef.params node)).length ∧
    (AnnotationCountCollector.visit_FunctionDef c node).annotated_parameter_count =
        c.annotated_parameter_count +
          (Parameters.default_params (FunctionDef.params node) ++
            Parameters.params (FunctionDef.params node)).countP
            (fun p => Param.annotation p) := by
  rw [visit_FunctionDef_spec]
  exact ⟨rfl, rfl, rfl, rfl⟩

/-- C3: a plain assignment increments `globals_count` by exactly 1 and
leaves `annotated_globals_count` unchanged; an annotated assignment
increments both by exactly 1; neither handler changes any of the four other
counters. -/
theorem visit_Assign_AnnAssign_increments (c : AnnotationCountCollector) :
    (AnnotationCountCollector.visit_Assign c).globals_count =
        c.globals_count + 1 ∧
    (AnnotationCountCollector.visit_Assign c).annotated_globals_count =
        c.annotated_globals_count ∧
    (AnnotationCountCollector.visit_Assign c).return_count = c.return_count ∧
    (AnnotationCountCollector.visit_Assign c).annotated_return_count =
        c.annotated_return_count ∧
    (AnnotationCountCollector.visit_Assign c).parameter_count =
        c.parameter_count ∧
    (AnnotationCountCollector.visit_Assign c).annotated_parameter_count =
        c.annotated_parameter_count ∧
    (AnnotationCountCollector.visit_AnnAssign c).globals_count =
        c.globals_count + 1 ∧
    (AnnotationCountCollector.visit_AnnAssign c).annotated_globals_count =
        c.annotated_globals_count + 1 ∧
    (AnnotationCountCollector.visit_AnnAssign c).return_count =
        c.return_count ∧
    (AnnotationCountCollector.visit_AnnAssign c).annotated_return_count =
        c.annotated_return_count ∧
    (AnnotationCountCollector.visit_AnnAssign c).parameter_count =
        c.parameter_count ∧
    (AnnotationCountCollector.visit_AnnAssign c).annotated_parameter_count =
        c.annotated_parameter_count :=
  ⟨rfl, rfl, rfl, rfl, rfl, rfl, rfl, rfl, rfl, rfl, rfl, rfl⟩

/-- One visit-handler invocation preserves the coverage inequalities. -/
theorem annotatedWithinTotals_visit (c : AnnotationCountCollector)
    (e : CollectorEvent) (h : annotatedWithinTotals c) :
    annotatedWithinTotals (AnnotationCountCollector.visit c e) := by
  obtain ⟨h1, h2, h3⟩ := h
  cases e with
  | functionDef node =>
    have hle :
        (Parameters.default_params (FunctionDef.params node) ++
          Parameters.params (FunctionDef.params node)).countP
            (fun p => Param.annotation p) ≤
        (Parameters.default_params (FunctionDef.params node) ++
          Parameters.params (FunctionDef.params node)).length :=
      List.countP_le_length _
    show annotatedWithinTotals
      (AnnotationCountCollector.visit_FunctionDef c node)
    rw [visit_FunctionDef_spec]
    refine ⟨Nat.add_le_add h1 ?_, Nat.add_le_add h2 hle, h3⟩
    split
    · exact Nat.le_refl 1
    · exact Nat.zero_le 1
  | assign => exact ⟨h1, h2, Nat.le_succ_of_le h3⟩
  | annAssign => exact ⟨h1, h2, Nat.succ_le_succ h3⟩
  | comment _ => exact ⟨h1, h2, h3⟩

/-- Folding any event sequence preserves the coverage inequalities. -/
theorem annotatedWithinTotals_foldl :
    ∀ (events : List CollectorEvent) (c : AnnotationCountCollector),
    annotatedWithinTotals c →
    annotatedWithinTotals (events.foldl AnnotationCountCollector.visit c)
  | [], _, h => h
  | e :: es, c, h =>
    annotatedWithinTotals_foldl es _ (annotatedWithinTotals_visit c e h)

/-- C4: starting from the zero-initialized collector, after any sequence of
visit-handler invocations (any interleaving of function-definition,
plain-assignment and annotated-assignment events — and in particular after
every step, since every prefix of a sequence is itself a sequence) the
inequalities `annotated_return_count ≤ return_count`,
`annotated_parameter_count ≤ parameter_count` and
`annotated_globals_count ≤ globals_count` hold. -/
theorem annotatedWithinTotals_always (events : List CollectorEvent) :
    annotatedWithinTotals
      (events.foldl AnnotationCountCollector.visit
        AnnotationCountCollector.init) :=
  annotatedWithinTotals_foldl events AnnotationCountCollector.init
    ⟨Nat.le_refl 0, Nat.le_refl 0, Nat.le_refl 0⟩

/-- Lemma: `dictIncr` increments the looked-up count of its key by exactly 1. -/
theorem dictGet_dictIncr_self :
    ∀ (d : Dict) (k : String), dictGet (dictIncr d k) k = dictGet d k + 1
  | [], k => by simp [dictIncr, dictGet]
  | (k', v) :: rest, k => by
    by_cases h : k' = k <;>
      simp [dictIncr, dictGet, h, dictGet_dictIncr_self rest k]

/-- Lemma: `dictIncr` leaves the looked-up count of every other key unchanged. -/
theorem dictGet_dictIncr_ne :
    ∀ (d : Dict) (k k₂ : String), k₂ ≠ k →
      dictGet (dictIncr d k) k₂ = dictGet d k₂
  | [], k, k₂, h => by simp [dictIncr, dictGet, Ne.symm h]
  | (k', v) :: rest, k, k₂, h => by
    by_cases h' : k' = k
    · subst h'
      simp [dictIncr, dictGet, Ne.symm h]
    · simp [dictIncr, dictGet, h', dictGet_dictIncr_ne rest k k₂ h]

/-- Lemma: `takeWhile` over a concatenation whose first part satisfies the
predicate throughout. -/
theorem takeWhile_append_all {p : Char → Bool} :
    ∀ {l₁ l₂ : List Char}, l₁.all p →
      (l₁ ++ l₂).takeWhile p = l₁ ++ l₂.takeWhile p
  | [], l₂, _ => rfl
  | c :: l₁, l₂, h => by
    rw [List.all_cons, Bool.and_eq_true] at h
    obtain ⟨hc, hrest⟩ := h
    simp [List.takeWhile_cons, hc, takeWhile_append_all hrest]

/-- Lemma: `dropWhile` over a concatenation whose first part satisfies the
predicate throughout. -/
theorem dropWhile_append_all {p : Char → Bool} :
    ∀ {l₁ l₂ : List Char}, l₁.all p →
      (l₁ ++ l₂).dropWhile p = l₂.dropWhile p
  | [], l₂, _ => rfl
  | c :: l₁, l₂, h => by
    rw [List.all_cons, Bool.and_eq_true] at h
    obtain ⟨hc, hrest⟩ := h
    simp [List.dropWhile_cons, hc, dropWhile_append_all hrest]

/-- Every character kept by `takeWhile` satisfies the predicate. -/
theorem all_takeWhile (p : Char → Bool) :
    ∀ (l : List Char), (l.takeWhile p).all p
  | [] => rfl
  | c :: l => by
    by_cases hc : p c <;> simp [List.takeWhile_cons, hc, all_takeWhile p l]

/-- Complete characterization of the anchored fixme regex match: it
succeeds with digit group `ds` exactly when the characters of the comment are
`"# pyre-fixme[" ++ ds ++ "]:"` followed by anything, with `ds` all
digits. -/
theorem fixmeMatchChars_eq_some_iff (l ds : List Char) :
    fixmeMatchChars l = some ds ↔
      ds.all Char.isDigit ∧
        ∃ tail, l = fixmeHead ++ ds ++ fixmeClose ++ tail := by
  have hfc : fixmeClose = [']', ':'] := rfl
  constructor
  · intro h
    unfold fixmeMatchChars at h
    by_cases h1 : fixmeHead.isPrefixOf l
    · simp only [h1, if_true] at h
      by_cases h2 :
          fixmeClose.isPrefixOf
            ((l.drop fixmeHead.length).dropWhile Char.isDigit)
      · simp only [h2, if_true, Option.some.injEq] at h
        obtain ⟨t, ht⟩ := List.isPrefixOf_iff_prefix.mp h1
        obtain ⟨u, hu⟩ := List.isPrefixOf_iff_prefix.mp h2
        subst h
        refine ⟨all_takeWhile _ _, u, ?_⟩
        rw [← ht] at hu ⊢
        rw [List.drop_left] at hu ⊢
        conv in fixmeHead ++ t => rw [← List.takeWhile_append_dropWhile
          (p := Char.isDigit) (l := t), ← hu]
        simp
      · simp [h2] at h
    · simp [h1] at h
  · rintro ⟨hds, tail, rfl⟩
    have hdrop : (fixmeHead ++ ds ++ fixmeClose ++ tail).drop
        fixmeHead.length = ds ++ (fixmeClose ++ tail) := by
      simp only [List.append_assoc]
      exact List.drop_left _ _
    have h2 : (ds ++ (fixmeClose ++ tail)).dropWhile Char.isDigit =
        fixmeClose ++ tail := by
      rw [dropWhile_append_all hds, hfc]
      simp [List.dropWhile_cons]
    have h4 : (ds ++ (fixmeClose ++ tail)).takeWhile Char.isDigit = ds := by
      rw [takeWhile_append_all hds, hfc]
      simp [List.takeWhile_cons]
    have h1 : fixmeHead.isPrefixOf
        (fixmeHead ++ ds ++ fixmeClose ++ tail) = true := by
      simp only [List.append_assoc]
      exact List.isPrefixOf_iff_prefix.mpr (List.prefix_append _ _)
    have h3 : fixmeClose.isPrefixOf (fixmeClose ++ tail) = true :=
      List.isPrefixOf_iff_prefix.mpr (List.prefix_append _ _)
    simp [fixmeMatchChars, h1, hdrop, h2, h3, h4]

/-- Character list of a string built from a character list. -/
theorem toList_mk (l : List Char) : (String.mk l).toList = l := rfl

/-- C2: a comment that matches the anchored pattern
`# pyre-fixme[<digits>]:` increments exactly the counter keyed by its digit
group (all other keys are untouched) and a non-matching comment changes no
counter; visiting `# pyre-fixme[7]:`, `# pyre-fixme[7]:`,
`# pyre-fixme[35]:`, `# not-a-fixme` from the empty map yields exactly
`{"7": 2, "35": 1}`; and the empty digit group of `# pyre-fixme[]:` matches
and increments the empty-string key. -/
theorem visit_Comment_counts :
    (∀ (counts : Dict) (value code : String), fixmeMatch value = some code →
        dictGet (visit_Comment counts value) code = dictGet counts code + 1 ∧
        ∀ k, k ≠ code →
          dictGet (visit_Comment counts value) k = dictGet counts k) ∧
    (∀ (counts : Dict) (value : String), fixmeMatch value = none →
        visit_Comment counts value = counts) ∧
    (["# pyre-fixme[7]:", "# pyre-fixme[7]:", "# pyre-fixme[35]:",
        "# not-a-fixme"].foldl visit_Comment [] = [("7", 2), ("35", 1)]) ∧
    (fixmeMatch "# pyre-fixme[]:" = some "" ∧
      visit_Comment [] "# pyre-fixme[]:" = [("", 1)]) := by
  refine ⟨?_, ?_, by decide, by decide, by decide⟩
  · intro counts value code h
    simp only [visit_Comment, h]
    exact ⟨dictGet_dictIncr_self counts code,
      fun k hk => dictGet_dictIncr_ne counts code k hk⟩
  · intro counts value h
    simp only [visit_Comment, h]

/-- C2 witness: the match/no-match cases of `visit_Comment_counts` at
concrete comments. -/
theorem visit_Comment_counts_witness :
    (dictGet (visit_Comment [] "# pyre-fixme[7]:") "7" =
        dictGet ([] : Dict) "7" + 1) ∧
    (dictGet (visit_Comment [] "# pyre-fixme[7]:") "35" =
        dictGet ([] : Dict) "35") ∧
    (visit_Comment [("7", 1)] "# not-a-fixme" = [("7", 1)]) :=
  ⟨(visit_Comment_counts.1 [] "# pyre-fixme[7]:" "7" (by decide)).1,
    (visit_Comment_counts.1 [] "# pyre-fixme[7]:" "7" (by decide)).2 "35"
      (by decide),
    visit_Comment_counts.2.1 [("7", 1)] "# not-a-fixme" (by decide)⟩

/-- C8: the suppression-marker match is prefix-only — a comment whose text
starts with `# pyre-fixme[<digits>]:` counts toward the key of that digit group
no matter what follows the colon, the match succeeds exactly on comments of
that anchored shape, and a comment without such a match (in particular one
in which the marker does not start at the very first character) changes no
counter. -/
theorem fixme_match_anchored :
    (∀ (counts : Dict) (ds tail : List Char), ds.all Char.isDigit = true →
        visit_Comment counts
            (String.mk (fixmeHead ++ ds ++ fixmeClose ++ tail)) =
          dictIncr counts (String.mk ds)) ∧
    (∀ s : String, (fixmeMatch s).isSome = true ↔
        ∃ ds tail, ds.all Char.isDigit = true ∧
          s.toList = fixmeHead ++ ds ++ fixmeClose ++ tail) ∧
    (∀ (counts : Dict) (s : String), fixmeMatch s = none →
        visit_Comment counts s = counts) := by
  refine ⟨?_, ?_, ?_⟩
  · intro counts ds tail hds
    have hm : fixmeMatchChars (fixmeHead ++ ds ++ fixmeClose ++ tail) =
        some ds :=
      (fixmeMatchChars_eq_some_iff _ _).mpr ⟨hds, tail, rfl⟩
    simp only [List.append_assoc] at hm
    simp [visit_Comment, fixmeMatch, toList_mk, hm]
  · intro s
    rw [fixmeMatch]
    constructor
    · intro h
      match hm : fixmeMatchChars s.toList with
      | none => rw [hm] at h; simp at h
      | some ds =>
        obtain ⟨hall, tail, ht⟩ := (fixmeMatchChars_eq_some_iff _ _).mp hm
        exact ⟨ds, tail, hall, ht⟩
    · rintro ⟨ds, tail, hall, ht⟩
      have hm : fixmeMatchChars s.data = some ds :=
        (fixmeMatchChars_eq_some_iff _ _).mpr ⟨hall, tail, ht⟩
      simp [hm]
  · intro counts s h
    simp only [visit_Comment, h]

/-- C8 witness: a matching comment with trailing explanation text counts
toward key "7"; a comment whose marker starts after the first character
counts nothing. -/
theorem fixme_match_anchored_witness :
    (visit_Comment []
        (String.mk (fixmeHead ++ ['7'] ++ fixmeClose ++
          (' ' :: ['o', 'k']))) = dictIncr [] (String.mk ['7'])) ∧
    (visit_Comment [("7", 1)] "x # pyre-fixme[7]:" = [("7", 1)]) :=
  ⟨fixme_match_anchored.1 [] ['7'] (' ' :: ['o', 'k']) (by decide),
    fixme_match_anchored.2.2 [("7", 1)] "x # pyre-fixme[7]:" (by decide)⟩

/-- On inputs where the configuration marker occurs only as a trailing
suffix (or not at all), the left-to-right replace-all scan agrees with
stripping one trailing marker, for any sufficient fuel. -/
theorem stripMarkerFuel_only_trailing :
    ∀ (fuel : Nat) (l : List Char), l.length ≤ fuel →
      (∀ i, i < l.length → markerChars.isPrefixOf (l.drop i) = true →
        i + markerChars.length = l.length) →
      stripMarkerFuel fuel l = specStripTrailing l
  | fuel, [], _, _ => by
    have : markerChars.isSuffixOf ([] : List Char) = false := by decide
    cases fuel <;> simp [stripMarkerFuel, specStripTrailing, this]
  | 0, c :: rest, hfuel, _ => by simp at hfuel
  | fuel + 1, c :: rest, hfuel, h => by
    by_cases hpre : markerChars.isPrefixOf (c :: rest) = true
    · have h0 := h 0 (by simp) (by simpa using hpre)
      have hlen : markerChars.length = (c :: rest).length := by omega
      have heq : markerChars = c :: rest :=
        List.IsPrefix.eq_of_length ( List.isPrefixOf_iff_prefix.mp hpre) hlen
      have hrlen : rest.length = markerChars.length - 1 := by
        rw [heq]; simp
      have hdrop : rest.drop (markerChars.length - 1) = [] :=
        List.drop_eq_nil_of_le (by omega)
      have hsuf : markerChars.isSuffixOf (c :: rest) = true := by
        rw [heq]; simp
      have hnil : stripMarkerFuel fuel ([] : List Char) = [] := by
        cases fuel <;> simp [stripMarkerFuel]
      simp only [stripMarkerFuel, hpre, if_true, hdrop, hnil,
        specStripTrailing, hsuf]
      have : (c :: rest).length - markerChars.length = 0 := by
        simp at hlen ⊢
        omega
      rw [this]
      rfl
    · have hrest : ∀ i, i < rest.length →
          markerChars.isPrefixOf (rest.drop i) = true →
          i + markerChars.length = rest.length := by
        intro i hi hp
        have hstep := h (i + 1) (by simp; omega)
          (by simpa [List.drop_succ_cons] using hp)
        simp at hstep
        omega
      have ih := stripMarkerFuel_only_trailing fuel rest
        (by simp at hfuel; omega) hrest
      have hlhs : stripMarkerFuel (fuel + 1) (c :: rest) =
          c :: stripMarkerFuel fuel rest := by
        simp [stripMarkerFuel, hpre]
      rw [hlhs, ih]
      by_cases hsuf : markerChars.isSuffixOf rest = true
      · have hsufl : markerChars <:+ rest :=
          List.isSuffixOf_iff_suffix.mp hsuf
        have hlen : markerChars.length ≤ rest.length :=
          List.IsSuffix.length_le hsufl
        have hsufc : markerChars.isSuffixOf (c :: rest) = true := by
          rw [List.isSuffixOf_iff_suffix]
          exact List.suffix_cons_iff.mpr (Or.inr hsufl)
        simp only [specStripTrailing, hsuf, hsufc, if_true]
        have hlen2 : (c :: rest).length - markerChars.length =
            (rest.length - markerChars.length) + 1 := by
          simp
          omega
        rw [hlen2, List.take_succ_cons]
      · have hsufc : markerChars.isSuffixOf (c :: rest) = false := by
        -- a marker suffix of `c :: rest` is either the whole list (then it
        -- would also be a prefix, contradicting this branch) or a suffix of
        -- `rest` (contradicting this branch)
          rw [Bool.eq_false_iff]
          intro hx
          rcases List.suffix_cons_iff.mp
            (List.isSuffixOf_iff_suffix.mp hx) with hwhole | htail
          · exact hpre (by rw [hwhole]; simp)
          · exact hsuf (List.isSuffixOf_iff_suffix.mpr htail)
        simp [specStripTrailing, hsuf, hsufc]

/-- C6: when a non-empty override string is provided and the configuration
marker `.pyre_configuration.local` occurs in it nowhere except (possibly) as
its trailing suffix, the derived base directory is exactly the override with
at most that one trailing suffix removed — pure string manipulation, with no
filesystem validation. -/
theorem baseDirectory_strips_trailing_marker (s cwd : String)
    (hne : s ≠ "")
    (honly : ∀ i, i < s.toList.length →
      markerChars.isPrefixOf (s.toList.drop i) = true →
      i + markerChars.length = s.toList.length) :
    baseDirectory s cwd = String.mk (specStripTrailing s.toList) := by
  rw [baseDirectory, if_pos hne, stripConfigurationMarker,
    stripMarkerFuel_only_trailing s.toList.length s.toList (Nat.le_refl _)
      honly]

/-- C6 witness: an override ending in the marker resolves to the override
with the trailing marker removed. -/
theorem baseDirectory_strips_trailing_marker_witness :
    baseDirectory "proj/.pyre_configuration.local" "/cwd" =
      String.mk (specStripTrailing
        (String.toList "proj/.pyre_configuration.local")) ∧
    String.mk (specStripTrailing
        (String.toList "proj/.pyre_configuration.local")) = "proj/" :=
  ⟨baseDirectory_strips_trailing_marker "proj/.pyre_configuration.local"
      "/cwd" (by decide) (by decide),
    by decide⟩

/-- C7: with no filters, `_find_paths` returns exactly the single-element
sequence holding the base directory; with filters, it returns exactly one
path per filter, in input order and without deduplication, each the base
directory joined with that filter. -/
theorem find_paths_per_filter (local_configuration cwd : String)
    (paths : List String) :
    (paths = [] →
      find_paths local_configuration cwd paths =
        [baseDirectory local_configuration cwd]) ∧
    (paths ≠ [] → ∀ i : Nat,
      (find_paths local_configuration cwd paths)[i]? =
        Option.map (fun p => pathJoin (baseDirectory local_configuration cwd) p)
          paths[i]?) := by
  constructor
  · intro h
    subst h
    rfl
  · intro h i
    simp [find_paths, h, List.getElem?_map]

/-- C7 witness: `_find_paths` at an empty and at a two-element filter
list. -/
theorem find_paths_per_filter_witness :
    (find_paths "" "/cwd" [] = [baseDirectory "" "/cwd"]) ∧
    ((find_paths "" "/cwd" ["a", "b"])[1]? =
      Option.map (fun p => pathJoin (baseDirectory "" "/cwd") p)
        (["a", "b"][1]?)) :=
  ⟨(find_paths_per_filter "" "/cwd" []).1 rfl,
    (find_paths_per_filter "" "/cwd" ["a", "b"]).2 (by decide) 1⟩

/-- C10: `_find_paths` never returns an empty sequence — its length is the
number of filters when at least one is given, and 1 otherwise, so the batch
parser always receives at least one path. -/
theorem find_paths_nonempty (local_configuration cwd : String)
    (paths : List String) :
    find_paths local_configuration cwd paths ≠ [] ∧
    (find_paths local_configuration cwd paths).length =
      max paths.length 1 := by
  cases paths with
  | nil => exact ⟨by simp [find_paths], by simp [find_paths]⟩
  | cons p ps =>
    exact ⟨by simp [find_paths], by simp [find_paths]⟩

/-- Allocation leaves every existing cell readable unchanged. -/
theorem Heap.read_alloc_old (h : Heap) (d : Dict) (a : Nat)
    (ha : a < h.cells.length) :
    Heap.read (Heap.alloc h d).1 a = Heap.read h a := by
  simp [Heap.read, Heap.alloc, List.getElem?_append, ha]

/-- Reading the freshly allocated cell yields the allocated dictionary. -/
theorem Heap.read_alloc_new (h : Heap) (d : Dict) :
    Heap.read (Heap.alloc h d).1 (Heap.alloc h d).2 = d := by
  simp [Heap.read, Heap.alloc]

/-- The address returned by allocation is one past the existing cells. -/
theorem Heap.alloc_addr (h : Heap) (d : Dict) :
    (Heap.alloc h d).2 = h.cells.length := rfl

/-- Allocation grows the heap by one cell. -/
theorem Heap.alloc_length (h : Heap) (d : Dict) :
    (Heap.alloc h d).1.cells.length = h.cells.length + 1 := by
  simp [Heap.alloc]

/-- Writing one cell leaves every other cell readable unchanged. -/
theorem Heap.read_write_ne (h : Heap) (a b : Nat) (d : Dict) (hab : a ≠ b) :
    Heap.read (Heap.write h a d) b = Heap.read h b := by
  simp [Heap.read, Heap.write, List.getElem?_set_ne hab]

/-- C9: `FixmeCountCollector.build_json` returns a fresh copy of the
accumulated map — the returned object is distinct from the internal one and
holds equal contents, the call leaves the internal map unchanged, a repeated
call returns an equal mapping, and mutating the returned object changes
neither the internal map nor any later `build_json` result. -/
theorem build_json_fresh_copy (h : Heap) (c : FixmeCountCollector)
    (d : Dict)
    (hvalid : FixmeCountCollector.fixme_counts c < h.cells.length) :
    (FixmeCountCollector.build_json h c).2 ≠
        FixmeCountCollector.fixme_counts c ∧
    Heap.read (FixmeCountCollector.build_json h c).1
        (FixmeCountCollector.fixme_counts c) =
      Heap.read h (FixmeCountCollector.fixme_counts c) ∧
    Heap.read (FixmeCountCollector.build_json h c).1
        (FixmeCountCollector.build_json h c).2 =
      Heap.read h (FixmeCountCollector.fixme_counts c) ∧
    Heap.read
        (FixmeCountCollector.build_json
          (FixmeCountCollector.build_json h c).1 c).1
        (FixmeCountCollector.build_json
          (FixmeCountCollector.build_json h c).1 c).2 =
      Heap.read h (FixmeCountCollector.fixme_counts c) ∧
    Heap.read
        (Heap.write (FixmeCountCollector.build_json h c).1
          (FixmeCountCollector.build_json h c).2 d)
        (FixmeCountCollector.fixme_counts c) =
      Heap.read h (FixmeCountCollector.fixme_counts c) ∧
    Heap.read
        (FixmeCountCollector.build_json
          (Heap.write (FixmeCountCollector.build_json h c).1
            (FixmeCountCollector.build_json h c).2 d) c).1
        (FixmeCountCollector.build_json
          (Heap.write (FixmeCountCollector.build_json h c).1
            (FixmeCountCollector.build_json h c).2 d) c).2 =
      Heap.read h (FixmeCountCollector.fixme_counts c) := by
  have hne : h.cells.length ≠ FixmeCountCollector.fixme_counts c :=
    Nat.ne_of_gt hvalid
  have h2 : Heap.read (FixmeCountCollector.build_json h c).1
      (FixmeCountCollector.fixme_counts c) =
      Heap.read h (FixmeCountCollector.fixme_counts c) :=
    Heap.read_alloc_old h _ _ hvalid
  have h3 : Heap.read (FixmeCountCollector.build_json h c).1
      (FixmeCountCollector.build_json h c).2 =
      Heap.read h (FixmeCountCollector.fixme_counts c) :=
    Heap.read_alloc_new h _
  have h4 :
      Heap.read
        (FixmeCountCollector.build_json
          (FixmeCountCollector.build_json h c).1 c).1
        (FixmeCountCollector.build_json
          (FixmeCountCollector.build_json h c).1 c).2 =
      Heap.read (FixmeCountCollector.build_json h c).1
        (FixmeCountCollector.fixme_counts c) :=
    Heap.read_alloc_new (FixmeCountCollector.build_json h c).1 _
  have h5 : Heap.read
      (Heap.write (FixmeCountCollector.build_json h c).1
        (FixmeCountCollector.build_json h c).2 d)
      (FixmeCountCollector.fixme_counts c) =
      Heap.read (FixmeCountCollector.build_json h c).1
        (FixmeCountCollector.fixme_counts c) :=
    Heap.read_write_ne _ _ _ d hne
  have h6 :
      Heap.read
        (FixmeCountCollector.build_json
          (Heap.write (FixmeCountCollector.build_json h c).1
            (FixmeCountCollector.build_json h c).2 d) c).1
        (FixmeCountCollector.build_json
          (Heap.write (FixmeCountCollector.build_json h c).1
            (FixmeCountCollector.build_json h c).2 d) c).2 =
      Heap.read
        (Heap.write (FixmeCountCollector.build_json h c).1
          (FixmeCountCollector.build_json h c).2 d)
        (FixmeCountCollector.fixme_counts c) :=
    Heap.read_alloc_new _ _
  exact ⟨hne, h2, h3, h4.trans h2, h5.trans h2, h6.trans (h5.trans h2)⟩

/-- C9 witness: the copy returned by `build_json` lives at a fresh address,
distinct from the internal map of the collector. -/
theorem build_json_fresh_copy_witness :
    (FixmeCountCollector.build_json (⟨[[("7", 2)]]⟩ : Heap)
        (⟨0⟩ : FixmeCountCollector)).2 ≠
      FixmeCountCollector.fixme_counts (⟨0⟩ : FixmeCountCollector) :=
  (build_json_fresh_copy ⟨[[("7", 2)]]⟩ ⟨0⟩ [("9", 9)] (by decide)).1

/-- C5 (refuted — the code keeps state across runs): because the default
argument `fixme_counts: Dict[str, int] = defaultdict(int)` of
`FixmeCountCollector.__init__` is evaluated once per process,
`FixmeCountCollector()` created by a second `Statistics._run` in the same
process aliases the dictionary already filled by the first run, so
re-running the pipeline on unchanged input does not reproduce the first
report: over a tree whose traversal carries the single comment
`# pyre-fixme[7]:`, the first run reports `{"7": 1}` and the second run
reports `{"7": 2}`. -/
theorem runStatistics_not_idempotent :
    (runStatistics [[CollectorEvent.comment "# pyre-fixme[7]:"]] 0
        initialHeap).1.fixmes = [("7", 1)] ∧
    (runStatistics [[CollectorEvent.comment "# pyre-fixme[7]:"]] 0
        (runStatistics [[CollectorEvent.comment "# pyre-fixme[7]:"]] 0
          initialHeap).2).1.fixmes = [("7", 2)] ∧
    (runStatistics [[CollectorEvent.comment "# pyre-fixme[7]:"]] 0
        (runStatistics [[CollectorEvent.comment "# pyre-fixme[7]:"]] 0
          initialHeap).2).1 ≠
      (runStatistics [[CollectorEvent.comment "# pyre-fixme[7]:"]] 0
        initialHeap).1 := by
  decide
